import Mathlib

/-!
# Verification of the gaze click-to-code annotator and runtime navigator

Shallow embedding of the repository:
* `src/src/runtime.ts` — location codec (`parseSourceLocation`), editor dispatch
  (`EDITOR_HANDLERS`, `openInEditor`), display-path derivation (`getDisplayPath`),
  config merging and the highlight session (`enableSourceHighlighting`).
* `src/unnamed/part_003` — the build-time loader (`turbopackSourceLoader`).

JavaScript numbers that are known integers are modelled as `Nat`; JS strings as
Lean `String`/`List Char`.  Babel parse/generate and Node `path.relative` are
external collaborators: the AST is modelled structurally and `path.relative` is
a function parameter of the loader model.
-/

namespace Gaze

/-! ## Decimal numerals

Embeds JS `Number.prototype.toString` (for naturals) and `parseInt(s, 10)` as
applied to regex-captured digit groups. -/

def digitChar (n : Nat) : Char := Char.ofNat (48 + n)

/-- Decimal digits of `n`, most significant first, prepended to `acc`.  The
`fuel` argument (any bound `≥ n`) keeps the recursion structural. -/
def natToCharsAux (fuel : Nat) (n : Nat) (acc : List Char) : List Char :=
  match fuel with
  | 0 => digitChar n :: acc
  | fuel + 1 =>
    if n < 10 then digitChar n :: acc
    else natToCharsAux fuel (n / 10) (digitChar (n % 10) :: acc)

def natToChars (n : Nat) : List Char := natToCharsAux n n []

def natToString (n : Nat) : String := String.mk (natToChars n)

def charsToNatFrom (acc : Nat) (l : List Char) : Nat :=
  l.foldl (fun a c => 10 * a + (c.toNat - 48)) acc

/-- Embeds `parseInt(s, 10)` on a string of decimal digits. -/
def charsToNat (l : List Char) : Nat := charsToNatFrom 0 l

/-! ## Location codec

`parseSourceLocation` (src/src/runtime.ts:23-37) matches the JS regex
`^(.+):(\d+):(\d+)$`.  The regex engine's greedy backtracking is embedded
directly: `.` matches any character except a line terminator, the `(.+)` group
takes the longest prefix such that the remaining suffix matches `:(\d+):(\d+)$`.
Inside the tail, `\d+` greedy matching is deterministic because a digit can
never match `:` or the end anchor, so `takeWhile` is exact. -/

/-- The four characters JS regex `.` (without the `s` flag) does not match. -/
def isLineTerminator (c : Char) : Bool :=
  c = '\n' || c = '\r' || c.toNat = 0x2028 || c.toNat = 0x2029

def dotChar (c : Char) : Bool := !isLineTerminator c

/-- Matches `:(\d+):(\d+)$` against the whole of `l`. -/
def tailMatch (l : List Char) : Option (Nat × Nat) :=
  match l with
  | [] => none
  | c :: rest =>
    let d1 := rest.takeWhile Char.isDigit
    match rest.drop d1.length with
    | c2 :: d2 =>
      if c = ':' ∧ c2 = ':' ∧ d1 ≠ [] ∧ d2 ≠ [] ∧ d2.all Char.isDigit
      then some (charsToNat d1, charsToNat d2)
      else none
    | [] => none

/-- Backtracking loop of the greedy `(.+)` group: try the file-prefix length
`k` downwards and return the first (hence longest) split whose tail matches. -/
def greedyGo (s : List Char) : Nat → Option (Nat × Nat × Nat)
  | 0 => none
  | k + 1 =>
    match tailMatch (s.drop (k + 1)) with
    | some (li, co) => some (k + 1, li, co)
    | none => greedyGo s k

/-- Match `^(p+):(\d+):(\d+)$` where `p` is the leading character class,
returning (file-prefix length, line, column). -/
def patMatch (p : Char → Bool) (s : List Char) : Option (Nat × Nat × Nat) :=
  greedyGo s (s.takeWhile p).length

structure SourceLocation where
  file : String
  line : Nat
  column : Nat
  raw : String
deriving DecidableEq, Repr

/-- Embeds `parseSourceLocation` (src/src/runtime.ts:23-37): `!sourceString`
short-circuit, then the anchored regex match. -/
def parseSourceLocation (sourceString : String) : Option SourceLocation :=
  if sourceString = "" then none
  else
    match patMatch dotChar sourceString.data with
    | some (k, li, co) =>
      some ⟨String.mk (sourceString.data.take k), li, co, sourceString⟩
    | none => none

/-- Embeds the annotator's token construction
`` `${filePath}:${line}:${column}` `` (src/unnamed/part_003:202). -/
def encodeLocation (file : String) (line column : Nat) : String :=
  String.mk (file.data ++ ':' :: (natToChars line ++ ':' :: natToChars column))

/-! ## Editor dispatch table (src/src/runtime.ts:110-190) -/

structure EditorConfig where
  handler : String
  useAbsolutePath : Option Bool := none
deriving DecidableEq, Repr

/-- `string | EditorConfig` argument of `openInEditor`. -/
inductive EditorTarget where
  | preset (name : String)
  | custom (config : EditorConfig)
deriving DecidableEq, Repr

def vscodeEntry : EditorConfig := ⟨"vscode://file/{file}:{line}:{column}", some true⟩

/-- Embeds the `EDITOR_HANDLERS` record (src/src/runtime.ts:132-161). -/
def EDITOR_HANDLERS (key : String) : Option EditorConfig :=
  if key = "vscode" then some vscodeEntry
  else if key = "cursor" then some ⟨"cursor://file/{file}:{line}:{column}", some true⟩
  else if key = "webstorm" then
    some ⟨"webstorm://open?file={file}&line={line}&column={column}", some true⟩
  else if key = "idea" then some ⟨"idea://open?file={file}&line={line}", some true⟩
  else if key = "sublime" then some ⟨"subl://{file}:{line}:{column}", some true⟩
  else if key = "atom" then
    some ⟨"atom://open?url=file://{file}&line={line}&column={column}", some true⟩
  else if key = "phpstorm" then some ⟨"phpstorm://open?file={file}&line={line}", some true⟩
  else none

def hexDigitUpper (n : Nat) : Char :=
  if n < 10 then Char.ofNat (48 + n) else Char.ofNat (55 + n)

/-- UTF-8 bytes of one code point (used by `encodeURIComponent`). -/
def utf8Bytes (c : Char) : List Nat :=
  let n := c.toNat
  if n < 0x80 then [n]
  else if n < 0x800 then [0xC0 + n / 64, 0x80 + n % 64]
  else if n < 0x10000 then [0xE0 + n / 4096, 0x80 + (n / 64) % 64, 0x80 + n % 64]
  else [0xF0 + n / 262144, 0x80 + (n / 4096) % 64, 0x80 + (n / 64) % 64, 0x80 + n % 64]

def percentByte (b : Nat) : List Char := ['%', hexDigitUpper (b / 16), hexDigitUpper (b % 16)]

/-- The characters JS `encodeURIComponent` leaves unescaped. -/
def uriUnreserved (c : Char) : Bool :=
  c.isAlphanum || c = '-' || c = '_' || c = '.' || c = '!' || c = '~' || c = '*' ||
    c = '\'' || c = '(' || c = ')'

/-- Embeds JS `encodeURIComponent`. -/
def encodeURIComponent (s : String) : String :=
  String.mk (s.data.flatMap fun c =>
    if uriUnreserved c then [c] else (utf8Bytes c).flatMap percentByte)

/-- Core of JS `String.prototype.replace` with a string pattern: replaces only
the FIRST occurrence.  (The `pat ≠ []` guard is unreachable in this program:
placeholders are never empty.) -/
def replaceFirstAux (pat repl : List Char) : List Char → List Char
  | [] => []
  | c :: rest =>
    if pat.isPrefixOf (c :: rest) ∧ pat ≠ []
    then repl ++ (c :: rest).drop pat.length
    else c :: replaceFirstAux pat repl rest

/-- Replace every (non-overlapping, left-to-right) occurrence; used for the
spec-side `buildURI` model.  `fuel` (any bound `≥` the list length) keeps the
recursion structural. -/
def replaceAllAuxF (pat repl : List Char) : Nat → List Char → List Char
  | _, [] => []
  | 0, l => l
  | fuel + 1, c :: rest =>
    if pat.isPrefixOf (c :: rest) ∧ pat ≠ []
    then repl ++ replaceAllAuxF pat repl fuel (rest.drop (pat.length - 1))
    else c :: replaceAllAuxF pat repl fuel rest

def replaceAllAux (pat repl l : List Char) : List Char :=
  replaceAllAuxF pat repl l.length l

/-- Number of (non-overlapping, left-to-right) occurrences of `pat`. -/
def countOccF (pat : List Char) : Nat → List Char → Nat
  | _, [] => 0
  | 0, _ => 0
  | fuel + 1, c :: rest =>
    if pat.isPrefixOf (c :: rest) ∧ pat ≠ []
    then 1 + countOccF pat fuel (rest.drop (pat.length - 1))
    else countOccF pat fuel rest

def countOcc (pat l : List Char) : Nat := countOccF pat l.length l

/-- JS `s.replace(pat, repl)` with a string pattern (first occurrence only). -/
def jsReplace (s pat repl : String) : String :=
  String.mk (replaceFirstAux pat.data repl.data s.data)

def jsReplaceAll (s pat repl : String) : String :=
  String.mk (replaceAllAux pat.data repl.data s.data)

/-- Embeds the URI-construction step of `openInEditor`
(src/src/runtime.ts:181-187), including the vacuous
`useAbsolutePath !== false ? file : file` conditional. -/
def buildURI (config : EditorConfig) (file : String) (line column : Nat) : String :=
  let filePath := if config.useAbsolutePath ≠ some false then file else file
  let url := jsReplace config.handler "{file}" (encodeURIComponent filePath)
  let url := jsReplace url "{line}" (natToString line)
  jsReplace url "{column}" (natToString column)

/-- Modelled from the spec: `buildURI` substituting into EVERY occurrence of
each placeholder (spec §4.2), for comparison with the source's `buildURI`. -/
def buildURISpec (config : EditorConfig) (file : String) (line column : Nat) : String :=
  let url := jsReplaceAll config.handler "{file}" (encodeURIComponent file)
  let url := jsReplaceAll url "{line}" (natToString line)
  jsReplaceAll url "{column}" (natToString column)

/-- Embeds `openInEditor` (src/src/runtime.ts:168-190); returns the dispatched
URI (`window.open` argument), or `none` when `window` is undefined. -/
def openInEditor (hasWindow : Bool) (location : SourceLocation)
    (editorConfig : EditorTarget) : Option String :=
  if !hasWindow then none
  else
    let config : EditorConfig :=
      match editorConfig with
      | .preset s => (EDITOR_HANDLERS s).getD vscodeEntry
      | .custom c => c
    some (buildURI config location.file location.line location.column)

/-! ## Display-path derivation (src/src/runtime.ts:339-355)

`getDisplayPath` uses `fullPath.match(/([^/\x5c]+:\d+:\d+)$/)`: the group must
reach the end anchor, so a match starting at position `i` must cover the whole
suffix from `i`; the leftmost such position wins.  `fullPath.split(/[\/\x5c]/)`
splits on both slash characters keeping empty segments. -/

def notSlash (c : Char) : Bool := !(c = '/' || c = '\\')

/-- Leftmost suffix fully matching `[^/\x5c]+:\d+:\d+` (i.e. `match[1]`). -/
def tooltipSearch : List Char → Option (List Char)
  | [] => none
  | c :: rest =>
    if (patMatch notSlash (c :: rest)).isSome then some (c :: rest)
    else tooltipSearch rest

def splitSlashes : List Char → List (List Char)
  | [] => [[]]
  | c :: rest =>
    if c = '/' || c = '\\' then [] :: splitSlashes rest
    else
      match splitSlashes rest with
      | h :: t => (c :: h) :: t
      | [] => [[c]]

/-- Embeds the `getDisplayPath` closure (src/src/runtime.ts:339-355). -/
def getDisplayPath (tooltipPathDisplay : String) (fullPath : String) : String :=
  if tooltipPathDisplay = "relative" then
    match tooltipSearch fullPath.data with
    | some m =>
      let pathParts := splitSlashes fullPath.data
      if 2 ≤ pathParts.length then
        let fileName := pathParts.getD (pathParts.length - 1) []
        let parentDir := pathParts.getD (pathParts.length - 2) []
        String.mk (parentDir ++ '/' :: fileName)
      else String.mk m
    | none => fullPath
  else fullPath

/-! ## Highlight configuration and merging (src/src/runtime.ts:266-336)

Optional JS object keys are modelled as `Option` fields (`none` = key absent).
`mergeConfig` embeds the spread `{ ...loaderConfig, ...config }`: a key present
in `config` wins, otherwise the `loaderConfig` value is kept; nothing nested is
merged. -/

structure Styles where
  outline : Option String := none
  outlineOffset : Option String := none
  tooltipBackground : Option String := none
  tooltipColor : Option String := none
deriving DecidableEq, Repr

structure HighlightConfig where
  editor : Option EditorTarget := none
  attributeName : Option String := none
  enabledByDefault : Option Bool := none
  tooltipPathDisplay : Option String := none
  showInstructions : Option Bool := none
  styles : Option Styles := none
deriving DecidableEq, Repr

/-- Embeds `{ ...loaderConfig, ...config }` (src/src/runtime.ts:310). -/
def mergeConfig (loaderConfig config : HighlightConfig) : HighlightConfig where
  editor := config.editor.orElse fun _ => loaderConfig.editor
  attributeName := config.attributeName.orElse fun _ => loaderConfig.attributeName
  enabledByDefault := config.enabledByDefault.orElse fun _ => loaderConfig.enabledByDefault
  tooltipPathDisplay := config.tooltipPathDisplay.orElse fun _ => loaderConfig.tooltipPathDisplay
  showInstructions := config.showInstructions.orElse fun _ => loaderConfig.showInstructions
  styles := config.styles.orElse fun _ => loaderConfig.styles

structure ResolvedStyles where
  outline : String
  outlineOffset : String
  tooltipBackground : String
  tooltipColor : String
deriving DecidableEq, Repr

/-- JS `v || dflt` on an optional string: `undefined` and `""` are falsy. -/
def jsOrString (v : Option String) (dflt : String) : String :=
  match v with
  | some s => if s = "" then dflt else s
  | none => dflt

/-- Embeds the `defaultStyles` object (src/src/runtime.ts:331-336). -/
def defaultStyles (styles : Styles) : ResolvedStyles where
  outline := jsOrString styles.outline "2px solid #0066cc"
  outlineOffset := jsOrString styles.outlineOffset "2px"
  tooltipBackground := jsOrString styles.tooltipBackground "rgba(0, 0, 0, 0.9)"
  tooltipColor := jsOrString styles.tooltipColor "white"

/-- The styles actually applied by `enableSourceHighlighting`: destructure
`styles = {}` from the merged config (src/src/runtime.ts:323), then fill
built-in defaults. -/
def effectiveStyles (merged : HighlightConfig) : ResolvedStyles :=
  defaultStyles (merged.styles.getD {})

/-! ## Source annotator (src/unnamed/part_003)

The Babel AST is modelled structurally: a file is a `use client` flag, the list
of prepended configuration-bootstrap snippets, and the JSX opening elements in
source order with their attribute lists.  Babel `parse`/`generate` are external
and position-faithful; `path.relative` is passed as a function parameter. -/

inductive AttrVal where
  | str (s : String)
  | expr (fileName : String) (lineNumber : Nat) (columnNumber : Nat)
deriving DecidableEq, Repr

inductive JSXAttr where
  | attr (name : String) (value : AttrVal)
  | spread
deriving DecidableEq, Repr

structure JSXElement where
  loc : Option (Nat × Nat)
  attributes : List JSXAttr
deriving DecidableEq, Repr

structure RuntimeOptions where
  autoInject : Option Bool := none
  editor : Option EditorTarget := none
  enabledByDefault : Option Bool := none
  showInstructions : Option Bool := none
  tooltipPathDisplay : Option String := none
  styles : Option Styles := none
deriving DecidableEq, Repr

/-- The serialized `window.__GAZE_LOADER_CONFIG__` payload of one injected
bootstrap snippet (src/unnamed/part_003:268-278). -/
structure ConfigSnippet where
  editor : EditorTarget
  enabledByDefault : Bool
  tooltipPathDisplay : String
  showInstructions : Bool
  styles : Styles
deriving DecidableEq, Repr

/-- JS `runtime.editor || 'vscode'`: an object is always truthy, a string is
falsy only when empty. -/
def editorOrVscode (e : Option EditorTarget) : EditorTarget :=
  match e with
  | some (.preset s) => if s = "" then .preset "vscode" else .preset s
  | some (.custom c) => .custom c
  | none => .preset "vscode"

/-- Embeds the snippet payload serialization (src/unnamed/part_003:270-276). -/
def configSnippet (rt : RuntimeOptions) : ConfigSnippet where
  editor := editorOrVscode rt.editor
  enabledByDefault := rt.enabledByDefault.getD false
  tooltipPathDisplay := jsOrString rt.tooltipPathDisplay "absolute"
  showInstructions := rt.showInstructions ≠ some false
  styles := rt.styles.getD {}

structure SourceFile where
  useClientDirective : Bool
  snippets : List ConfigSnippet
  elements : List JSXElement
deriving DecidableEq, Repr

def isAttrNamed (name : String) : JSXAttr → Bool
  | .attr n _ => n = name
  | .spread => false

/-- `node.attributes.some(attr => isJSXAttribute && name === attributeName)`
(src/unnamed/part_003:205-209). -/
def hasAttrNamed (name : String) (attrs : List JSXAttr) : Bool :=
  attrs.any (isAttrNamed name)

/-- Embeds the `JSXOpeningElement` visitor body (src/unnamed/part_003:188-251). -/
def annotateElement (attributeName filePath : String) (injectReactSource : Bool)
    (el : JSXElement) : JSXElement :=
  match el.loc with
  | none => el
  | some (line, column) =>
    let sourceLocation := encodeLocation filePath line column
    let hasAttribute := hasAttrNamed attributeName el.attributes
    let attrs1 :=
      if !hasAttribute && sourceLocation ≠ ""
      then el.attributes ++ [.attr attributeName (.str sourceLocation)]
      else el.attributes
    let attrs2 :=
      if injectReactSource then
        if !hasAttrNamed "__source" attrs1
        then attrs1 ++ [.attr "__source" (.expr filePath line column)]
        else attrs1
      else attrs1
    { el with attributes := attrs2 }

structure LoaderOptions where
  production : Option Bool := none
  attributeName : Option String := none
  useRelativePaths : Option Bool := none
  rootDir : Option String := none
  injectReactSource : Option Bool := none
  runtime : Option RuntimeOptions := none
deriving Repr

/-- Embeds `turbopackSourceLoader` (src/unnamed/part_003:136-297).
`isProduction` is `process.env.NODE_ENV === 'production'`, `cwd` is
`process.cwd()`, `pathRelative` is Node's `path.relative`, `resourcePath` is
`this.resourcePath`.  A new bootstrap snippet is inserted in front of any
snippets already present (after the `use client` directive when there is one,
which the directive flag keeps separate). -/
def turbopackSourceLoader (isProduction : Bool) (cwd : String)
    (pathRelative : String → String → String) (options : LoaderOptions)
    (resourcePath : String) (source : SourceFile) : SourceFile :=
  if isProduction && !(options.production.getD false) then source
  else
    let attributeName := options.attributeName.getD "data-insp-path"
    let useRelativePaths := options.useRelativePaths.getD false
    let rootDir := options.rootDir.getD cwd
    let injectReactSource := options.injectReactSource.getD false
    let filePath := if useRelativePaths then pathRelative rootDir resourcePath else resourcePath
    let annotated :=
      { source with
        elements := source.elements.map (annotateElement attributeName filePath injectReactSource) }
    match options.runtime with
    | some rt =>
      if !isProduction
      then { annotated with snippets := configSnippet rt :: annotated.snippets }
      else annotated
    | none => annotated

/-! ## Runtime navigator session (src/src/runtime.ts:305-493)

The DOM surface touched by `enableSourceHighlighting` is modelled as a `Doc`:
listener lists keyed by session id (each call creates fresh handler closures,
so distinct calls get distinct ids; `addEventListener` deduplicates an
identical handler), the connected mutation observers, the style elements in
`document.head`, and the page marker class on `document.body`.  The closure
variables of one call (`isEnabled`, `styleElement`, `observer`) form a
`Session`. -/

structure Session where
  isEnabled : Bool
  styleCreated : Bool
  observerVar : Bool
deriving DecidableEq, Repr

structure Doc where
  keydown : List Nat
  click : List Nat
  observers : List Nat
  styles : List Nat
  marker : Bool
deriving DecidableEq, Repr

def emptyDoc : Doc := ⟨[], [], [], [], false⟩

/-- `addEventListener`: a handler already registered for the same event and
capture flag is not added again. -/
def addListener (l : List Nat) (sid : Nat) : List Nat :=
  if sid ∈ l then l else l ++ [sid]

/-- Embeds the `createStyles` closure (src/src/runtime.ts:369-407). -/
def createStyles (sid : Nat) : Session × Doc → Session × Doc
  | (s, d) =>
    if s.styleCreated then (s, d)
    else ({ s with styleCreated := true }, { d with styles := d.styles ++ [sid] })

/-- Embeds the `toggleHighlighting` closure (src/src/runtime.ts:427-456).
(`processElements` only writes `data-tooltip-path` element attributes, which
this DOM abstraction does not track.) -/
def toggleHighlighting (sid : Nat) : Session × Doc → Session × Doc
  | (s, d) =>
    let s := { s with isEnabled := !s.isEnabled }
    if s.isEnabled then
      let (s, d) := createStyles sid (s, d)
      let d := { d with marker := true, click := addListener d.click sid }
      ({ s with observerVar := true }, { d with observers := d.observers ++ [sid] })
    else
      let d := { d with marker := false, click := d.click.erase sid }
      if s.observerVar then
        ({ s with observerVar := false }, { d with observers := d.observers.erase sid })
      else (s, d)

/-- Embeds the `keyboardHandler` closure (src/src/runtime.ts:459-464):
toggle only on Shift + `Z`. -/
def keyboardHandler (sid : Nat) (shift : Bool) (key : String) :
    Session × Doc → Session × Doc :=
  fun sd => if shift && key == "Z" then toggleHighlighting sid sd else sd

/-- Embeds `enableSourceHighlighting` (src/src/runtime.ts:305-330, 466-470):
the `typeof document` guard, config merge, the closure initialization
`let isEnabled = enabledByDefault` (src/src/runtime.ts:326), keydown
registration, and the init-time `if (enabledByDefault) toggleHighlighting()`
(src/src/runtime.ts:468-470).  Note the double toggle in the source: since
`isEnabled` already starts at `enabledByDefault`, the init toggle negates it
first (src/src/runtime.ts:428) and, for `enabledByDefault = true`, runs the
DISABLE branch — the session comes up inactive (the removals are no-ops on a
fresh page).  Returns `none` for the session when there is no document (the
returned cleanup is then a no-op). -/
def enableSourceHighlighting (hasDocument : Bool) (loaderConfig config : HighlightConfig)
    (sid : Nat) (d : Doc) : Option Session × Doc :=
  if !hasDocument then (none, d)
  else
    let merged := mergeConfig loaderConfig config
    let enabledByDefault := merged.enabledByDefault.getD false
    let s0 : Session := ⟨enabledByDefault, false, false⟩
    let d1 := { d with keydown := addListener d.keydown sid }
    let p := if enabledByDefault then toggleHighlighting sid (s0, d1) else (s0, d1)
    (some p.1, p.2)

/-- Dispatch a list of keydown events (shift flag, key) to the session. -/
def runKeyEvents (sid : Nat) (evs : List (Bool × String)) (st : Option Session × Doc) :
    Option Session × Doc :=
  evs.foldl
    (fun st ev =>
      match st with
      | (some s, d) =>
        let p := keyboardHandler sid ev.1 ev.2 (s, d)
        (some p.1, p.2)
      | (none, d) => (none, d))
    st

/-- Embeds the returned cleanup closure (src/src/runtime.ts:480-493):
`removeEventListener` on an absent handler, `Element.remove()` on a detached
element and `MutationObserver.disconnect()` on a disconnected observer are all
specified no-ops, so each step is total. -/
def cleanup (sid : Nat) : Option Session × Doc → Option Session × Doc
  | (none, d) => (none, d)
  | (some s, d) =>
    let d := { d with keydown := d.keydown.erase sid }
    let d := { d with click := d.click.erase sid }
    let d := if s.styleCreated then { d with styles := d.styles.erase sid } else d
    let d := if s.observerVar then { d with observers := d.observers.erase sid } else d
    (some s, { d with marker := false })

/-- Verification invariant tying one session's closure state to its footprint
in the document: exactly one keydown handler for the session, and a click
handler / observer / style element exactly when the corresponding closure
variable says so. -/
def sessionInv (sid : Nat) (s : Session) (d : Doc) : Prop :=
  d.keydown.count sid = 1 ∧
  d.click.count sid = (if s.isEnabled then 1 else 0) ∧
  s.observerVar = s.isEnabled ∧
  d.observers.count sid = (if s.isEnabled then 1 else 0) ∧
  d.styles.count sid = (if s.styleCreated then 1 else 0)

def sessionInvO (sid : Nat) : Option Session × Doc → Prop
  | (none, _) => True
  | (some s, d) => sessionInv sid s d

/-! ## Theorems -/

theorem digitChar_toNat {n : Nat} (h : n < 10) : (digitChar n).toNat = 48 + n := by
  interval_cases n <;> decide

theorem digitChar_isDigit {n : Nat} (h : n < 10) : (digitChar n).isDigit := by
  interval_cases n <;> decide

theorem charsToNatFrom_cons (a : Nat) (c : Char) (l : List Char) :
    charsToNatFrom a (c :: l) = charsToNatFrom (10 * a + (c.toNat - 48)) l := rfl

theorem natToCharsAux_charsToNat (fuel : Nat) :
    ∀ n acc, n ≤ fuel → charsToNat (natToCharsAux fuel n acc) = charsToNatFrom n acc := by
  induction fuel with
  | zero =>
    intro n acc hn
    obtain rfl : n = 0 := by omega
    simp [natToCharsAux, charsToNat, charsToNatFrom_cons, digitChar_toNat (by omega : (0:Nat) < 10)]
  | succ fuel ih =>
    intro n acc hn
    rw [natToCharsAux]
    by_cases h : n < 10
    · simp only [h, if_true]
      simp [charsToNat, charsToNatFrom_cons, digitChar_toNat h]
    · simp only [h, if_false]
      rw [ih (n / 10) _ (by omega)]
      rw [charsToNatFrom_cons, digitChar_toNat (Nat.mod_lt _ (by omega))]
      have : 10 * (n / 10) + (48 + n % 10 - 48) = n := by omega
      rw [this]

theorem charsToNat_natToChars (n : Nat) : charsToNat (natToChars n) = n := by
  rw [natToChars, natToCharsAux_charsToNat n n [] le_rfl]
  rfl

theorem natToCharsAux_ne_nil (fuel : Nat) :
    ∀ n acc, natToCharsAux fuel n acc ≠ [] := by
  induction fuel with
  | zero => intro n acc; simp [natToCharsAux]
  | succ fuel ih =>
    intro n acc
    rw [natToCharsAux]
    by_cases h : n < 10
    · simp [h]
    · simp only [h, if_false]
      exact ih _ _

theorem natToChars_ne_nil (n : Nat) : natToChars n ≠ [] := natToCharsAux_ne_nil n n []

theorem natToCharsAux_all_digit (fuel : Nat) :
    ∀ n acc, n ≤ fuel → (∀ c ∈ acc, c.isDigit) →
      ∀ c ∈ natToCharsAux fuel n acc, c.isDigit := by
  induction fuel with
  | zero =>
    intro n acc hn hacc c hc
    obtain rfl : n = 0 := by omega
    rcases List.mem_cons.mp hc with rfl | hc
    · exact digitChar_isDigit (by omega)
    · exact hacc c hc
  | succ fuel ih =>
    intro n acc hn hacc c hc
    rw [natToCharsAux] at hc
    by_cases h : n < 10
    · simp only [h, if_true] at hc
      rcases List.mem_cons.mp hc with rfl | hc
      · exact digitChar_isDigit h
      · exact hacc c hc
    · simp only [h, if_false] at hc
      refine ih (n / 10) _ (by omega) ?_ c hc
      intro x hx
      rcases List.mem_cons.mp hx with rfl | hx
      · exact digitChar_isDigit (Nat.mod_lt _ (by omega))
      · exact hacc x hx

theorem natToChars_all_digit (n : Nat) : ∀ c ∈ natToChars n, c.isDigit :=
  natToCharsAux_all_digit n n [] le_rfl (by simp)

theorem digit_ne_colon {c : Char} (h : c.isDigit) : c ≠ ':' := by
  intro he
  subst he
  simp [Char.isDigit] at h

/-! ### Codec round-trip lemmas -/

theorem takeWhile_all {p : Char → Bool} {l : List Char} (h : ∀ c ∈ l, p c) :
    l.takeWhile p = l := by
  induction l with
  | nil => rfl
  | cons c t ih =>
    rw [List.takeWhile_cons]
    rw [h c (by simp)]
    simp [ih fun x hx => h x (by simp [hx])]

theorem takeWhile_middle {p : Char → Bool} {l : List Char} (x : Char) (r : List Char)
    (hl : ∀ c ∈ l, p c) (hx : ¬ p x) : (l ++ x :: r).takeWhile p = l := by
  induction l with
  | nil => simpa [List.takeWhile_cons] using hx
  | cons c t ih =>
    rw [List.cons_append, List.takeWhile_cons]
    rw [hl c (by simp)]
    simp [ih fun y hy => hl y (by simp [hy])]

theorem colon_not_digit : ¬ (':' : Char).isDigit := by decide

theorem tailMatch_correct {d1 d2 : List Char}
    (h1 : ∀ c ∈ d1, c.isDigit) (h1n : d1 ≠ [])
    (h2 : ∀ c ∈ d2, c.isDigit) (h2n : d2 ≠ []) :
    tailMatch (':' :: (d1 ++ ':' :: d2)) = some (charsToNat d1, charsToNat d2) := by
  have htw : (d1 ++ ':' :: d2).takeWhile Char.isDigit = d1 :=
    takeWhile_middle ':' d2 h1 colon_not_digit
  have hdr : (d1 ++ ':' :: d2).drop d1.length = ':' :: d2 := by
    simpa using List.drop_left d1 (':' :: d2)
  simp only [tailMatch, htw, hdr]
  have hall : d2.all Char.isDigit := List.all_eq_true.mpr fun c hc => h2 c hc
  simp [h1n, h2n, hall]

theorem tailMatch_nil : tailMatch [] = none := rfl

theorem tailMatch_cons_ne_colon {c : Char} (rest : List Char) (hc : c ≠ ':') :
    tailMatch (c :: rest) = none := by
  simp only [tailMatch]
  cases h : rest.drop (rest.takeWhile Char.isDigit).length with
  | nil => rfl
  | cons c2 d2 => simp [hc]

theorem tailMatch_colon_digits {t : List Char} (h : ∀ c ∈ t, c.isDigit) :
    tailMatch (':' :: t) = none := by
  have htw : t.takeWhile Char.isDigit = t := takeWhile_all h
  simp only [tailMatch, htw]
  rw [List.drop_length]

/-- Every strictly-inside start position of the encoded tail fails to match
`:(\d+):(\d+)$`. -/
theorem tailMatch_inside_none {d1 d2 : List Char}
    (h1 : ∀ c ∈ d1, c.isDigit) (h2 : ∀ c ∈ d2, c.isDigit) :
    ∀ i, 1 ≤ i → tailMatch ((':' :: (d1 ++ ':' :: d2)).drop i) = none := by
  intro i hi
  obtain ⟨j, rfl⟩ : ∃ j, i = j + 1 := ⟨i - 1, by omega⟩
  rw [List.drop_succ_cons]
  by_cases hj : j < d1.length
  · have hne : d1.drop j ≠ [] := by
      simp [List.drop_eq_nil_iff]
      omega
    cases hd : d1.drop j with
    | nil => exact absurd hd hne
    | cons c t =>
      have hcd : c.isDigit := h1 c (List.mem_of_mem_drop (hd ▸ List.mem_cons_self c t))
      rw [List.drop_append_of_le_length (by omega), hd, List.cons_append]
      exact tailMatch_cons_ne_colon _ (digit_ne_colon hcd)
  · have hj' : d1.length ≤ j := by omega
    obtain ⟨m, rfl⟩ : ∃ m, j = d1.length + m := ⟨j - d1.length, by omega⟩
    rw [List.drop_append]
    cases m with
    | zero =>
      simpa using tailMatch_colon_digits h2
    | succ m =>
      rw [List.drop_succ_cons]
      cases hd : d2.drop m with
      | nil => exact tailMatch_nil
      | cons c t =>
        have hcd : c.isDigit := h2 c (List.mem_of_mem_drop (hd ▸ List.mem_cons_self c t))
        exact tailMatch_cons_ne_colon _ (digit_ne_colon hcd)

theorem greedyGo_eq (s : List Char) (k₀ li co : Nat) (hk : 1 ≤ k₀)
    (hmatch : tailMatch (s.drop k₀) = some (li, co))
    (hnone : ∀ j, k₀ < j → tailMatch (s.drop j) = none) :
    ∀ m, k₀ ≤ m → greedyGo s m = some (k₀, li, co) := by
  intro m
  induction m with
  | zero => intro h; omega
  | succ m ih =>
    intro h
    by_cases he : m + 1 = k₀
    · rw [greedyGo, he, hmatch]
    · have hlt : k₀ < m + 1 := by omega
      rw [greedyGo, hnone (m + 1) hlt]
      exact ih (by omega)

theorem digitChar_dotChar {n : Nat} (h : n < 10) : dotChar (digitChar n) := by
  interval_cases n <;> decide

theorem natToCharsAux_all_dotChar (fuel : Nat) :
    ∀ n acc, n ≤ fuel → (∀ c ∈ acc, dotChar c) →
      ∀ c ∈ natToCharsAux fuel n acc, dotChar c := by
  induction fuel with
  | zero =>
    intro n acc hn hacc c hc
    obtain rfl : n = 0 := by omega
    rcases List.mem_cons.mp hc with rfl | hc
    · exact digitChar_dotChar (by omega)
    · exact hacc c hc
  | succ fuel ih =>
    intro n acc hn hacc c hc
    rw [natToCharsAux] at hc
    by_cases h : n < 10
    · simp only [h, if_true] at hc
      rcases List.mem_cons.mp hc with rfl | hc
      · exact digitChar_dotChar h
      · exact hacc c hc
    · simp only [h, if_false] at hc
      refine ih (n / 10) _ (by omega) ?_ c hc
      intro x hx
      rcases List.mem_cons.mp hx with rfl | hx
      · exact digitChar_dotChar (Nat.mod_lt _ (by omega))
      · exact hacc x hx

theorem natToChars_all_dotChar (n : Nat) : ∀ c ∈ natToChars n, dotChar c :=
  natToCharsAux_all_dotChar n n [] le_rfl (by simp)

theorem colon_dotChar : dotChar ':' := by decide

/-- C10: for every `SourceLocation` and every custom editor config, the URI
built and dispatched by `openInEditor` is identical whether `useAbsolutePath`
is `true`, `false`, or absent — the field has no effect on the substituted
file path (`config.useAbsolutePath !== false ? file : file` yields `file`
either way, src/src/runtime.ts:183). -/
theorem useAbsolutePath_no_effect (hasWindow : Bool) (location : SourceLocation)
    (handler : String) (b b2 : Option Bool) :
    openInEditor hasWindow location (.custom ⟨handler, b⟩) =
      openInEditor hasWindow location (.custom ⟨handler, b2⟩) := by
  simp [openInEditor, buildURI]

/-- C8: when the build runs in production mode and the `production` option is
not enabled, the annotator returns its input unchanged — no attribute
injection, no bootstrap snippet (src/unnamed/part_003:150-154). -/
theorem annotator_production_skip (cwd : String)
    (pathRelative : String → String → String) (options : LoaderOptions)
    (resourcePath : String) (source : SourceFile)
    (h : options.production.getD false = false) :
    turbopackSourceLoader true cwd pathRelative options resourcePath source = source := by
  simp [turbopackSourceLoader, h]

theorem annotator_production_skip_witness :
    turbopackSourceLoader true "/app" (fun _ p => p) {} "f.tsx"
        ⟨false, [], [⟨some (1, 2), []⟩]⟩ = ⟨false, [], [⟨some (1, 2), []⟩]⟩ :=
  annotator_production_skip "/app" (fun _ p => p) {} "f.tsx" ⟨false, [], [⟨some (1, 2), []⟩]⟩ rfl

/-- C7: with `tooltipPathDisplay = 'relative'` the display path of
`/Users/me/app/components/Button.tsx:10:5` is `components/Button.tsx:10:5`
(last two path segments, the second already carrying the trailing
`line:column`); with any other setting the display path is the full token
verbatim (src/src/runtime.ts:339-355). -/
theorem display_path_derivation (mode fullPath : String) :
    getDisplayPath "relative" "/Users/me/app/components/Button.tsx:10:5" =
        "components/Button.tsx:10:5" ∧
      (mode ≠ "relative" → getDisplayPath mode fullPath = fullPath) := by
  constructor
  · decide
  · intro h
    simp [getDisplayPath, h]

theorem display_path_derivation_witness :
    getDisplayPath "relative" "/Users/me/app/components/Button.tsx:10:5" =
        "components/Button.tsx:10:5" ∧
      getDisplayPath "absolute" "/a/b.tsx:1:2" = "/a/b.tsx:1:2" :=
  ⟨(display_path_derivation "absolute" "/a/b.tsx:1:2").1,
   (display_path_derivation "absolute" "/a/b.tsx:1:2").2 (by decide)⟩

/-- C2 counterexample: the claim says the nested `styles` map is itself
shallow-merged, so a call-time styles object supplying only `outline` should
leave the loader config's `tooltipColor` (`"blue"`) in effect.  The code
merges with a plain spread (src/src/runtime.ts:310): the call-time `styles`
replaces the loader `styles` wholesale and the effective tooltip color is the
built-in `"white"`, not `"blue"`. -/
theorem merge_styles_not_deep :
    effectiveStyles (mergeConfig
        { styles := some { outline := some "3px solid red", tooltipColor := some "blue" } }
        { styles := some { outline := some "1px dotted green" } }) =
      ⟨"1px dotted green", "2px", "rgba(0, 0, 0, 0.9)", "white"⟩ ∧
      ¬ (effectiveStyles (mergeConfig
          { styles := some { outline := some "3px solid red", tooltipColor := some "blue" } }
          { styles := some { outline := some "1px dotted green" } })).tooltipColor = "blue" := by
  decide

/-- C2 amended: for every key of the HighlightConfig (`editor`,
`attributeName`, `enabledByDefault`, `tooltipPathDisplay`, `showInstructions`
and `styles`), the merged config takes the call-time value when that key is
present in the call-time config and the loader value otherwise (override
wins, shallow on every key INCLUDING `styles`): a call-time `styles` object
replaces the loader `styles` entirely, and the styles actually applied are
the call-time styles filled with the built-in defaults (never with loader
style keys). -/
theorem merge_shallow_override_wins (loaderConfig config : HighlightConfig) :
    ((mergeConfig loaderConfig config).editor =
        if config.editor.isSome then config.editor else loaderConfig.editor) ∧
      ((mergeConfig loaderConfig config).attributeName =
        if config.attributeName.isSome then config.attributeName
        else loaderConfig.attributeName) ∧
      ((mergeConfig loaderConfig config).enabledByDefault =
        if config.enabledByDefault.isSome then config.enabledByDefault
        else loaderConfig.enabledByDefault) ∧
      ((mergeConfig loaderConfig config).tooltipPathDisplay =
        if config.tooltipPathDisplay.isSome then config.tooltipPathDisplay
        else loaderConfig.tooltipPathDisplay) ∧
      ((mergeConfig loaderConfig config).showInstructions =
        if config.showInstructions.isSome then config.showInstructions
        else loaderConfig.showInstructions) ∧
      ((mergeConfig loaderConfig config).styles =
        if config.styles.isSome then config.styles else loaderConfig.styles) ∧
      (∀ s, config.styles = some s →
        effectiveStyles (mergeConfig loaderConfig config) = defaultStyles s) := by
  refine ⟨?_, ?_, ?_, ?_, ?_, ?_, ?_⟩
  · cases he : config.editor <;> simp [mergeConfig, Option.orElse, he]
  · cases he : config.attributeName <;> simp [mergeConfig, Option.orElse, he]
  · cases he : config.enabledByDefault <;> simp [mergeConfig, Option.orElse, he]
  · cases he : config.tooltipPathDisplay <;> simp [mergeConfig, Option.orElse, he]
  · cases he : config.showInstructions <;> simp [mergeConfig, Option.orElse, he]
  · cases he : config.styles <;> simp [mergeConfig, Option.orElse, he]
  · intro s h
    simp [mergeConfig, effectiveStyles, h, Option.orElse]

theorem replaceAllAuxF_of_countOccF_zero (pat repl : List Char) (fuel : Nat) :
    ∀ l : List Char, l.length ≤ fuel → countOccF pat fuel l = 0 →
      replaceAllAuxF pat repl fuel l = l := by
  induction fuel with
  | zero =>
    intro l hl _
    have : l = [] := List.length_eq_zero.mp (by omega)
    subst this
    rfl
  | succ fuel ih =>
    intro l hl h
    cases l with
    | nil => rfl
    | cons c rest =>
      rw [countOccF] at h
      rw [replaceAllAuxF]
      by_cases hp : pat.isPrefixOf (c :: rest) ∧ pat ≠ []
      · rw [if_pos hp] at h
        omega
      · rw [if_neg hp] at h
        rw [if_neg hp]
        rw [ih rest (by simp at hl; omega) h]

theorem replaceFirst_eq_replaceAllF (pat repl : List Char) (fuel : Nat) :
    ∀ l : List Char, l.length ≤ fuel → countOccF pat fuel l ≤ 1 →
      replaceFirstAux pat repl l = replaceAllAuxF pat repl fuel l := by
  induction fuel with
  | zero =>
    intro l hl _
    have : l = [] := List.length_eq_zero.mp (by omega)
    subst this
    rfl
  | succ fuel ih =>
    intro l hl h
    cases l with
    | nil => rfl
    | cons c rest =>
      rw [countOccF] at h
      rw [replaceFirstAux, replaceAllAuxF]
      by_cases hp : pat.isPrefixOf (c :: rest) ∧ pat ≠ []
      · rw [if_pos hp] at h
        rw [if_pos hp, if_pos hp]
        have hlen : 1 ≤ pat.length := List.length_pos.mpr hp.2
        have hdix : (c :: rest).drop pat.length = rest.drop (pat.length - 1) := by
          obtain ⟨k, hk⟩ : ∃ k, pat.length = k + 1 := ⟨pat.length - 1, by omega⟩
          rw [hk, List.drop_succ_cons]
          simp
        rw [hdix]
        congr 1
        have hdl : (rest.drop (pat.length - 1)).length ≤ fuel := by
          have := List.length_drop (pat.length - 1) rest
          simp at hl
          omega
        refine (replaceAllAuxF_of_countOccF_zero pat repl fuel _ hdl (by omega)).symm
      · rw [if_neg hp] at h
        rw [if_neg hp, if_neg hp]
        rw [ih rest (by simp at hl; omega) h]

/-- `countOcc ≤ 1` makes first-occurrence and every-occurrence replacement
agree (`countOcc` and `replaceAllAux` fix the fuel at the list length). -/
theorem replaceFirst_eq_replaceAll (pat repl l : List Char)
    (h : countOcc pat l ≤ 1) :
    replaceFirstAux pat repl l = replaceAllAux pat repl l :=
  replaceFirst_eq_replaceAllF pat repl l.length l le_rfl h

theorem char_toNat_lt (c : Char) : c.toNat < 1114112 := by
  have h := c.valid
  rcases h with h | ⟨_, h⟩
  · exact Nat.lt_trans h (by decide)
  · exact h

theorem digit_ne_lbrace {c : Char} (h : c.isDigit) : c ≠ '{' := by
  intro he
  subst he
  simp [Char.isDigit] at h

theorem hexDigitUpper_ne_lbrace {n : Nat} (h : n < 16) : hexDigitUpper n ≠ '{' := by
  interval_cases n <;> decide

theorem utf8Bytes_lt (c : Char) : ∀ b ∈ utf8Bytes c, b < 256 := by
  intro b hb
  have hc : c.toNat < 1114112 := char_toNat_lt c
  unfold utf8Bytes at hb
  by_cases h1 : c.toNat < 0x80
  · simp [h1] at hb
    omega
  · by_cases h2 : c.toNat < 0x800
    · simp [h1, h2] at hb
      rcases hb with rfl | rfl <;> omega
    · by_cases h3 : c.toNat < 0x10000
      · simp [h1, h2, h3] at hb
        rcases hb with rfl | rfl | rfl <;> omega
      · simp [h1, h2, h3] at hb
        rcases hb with rfl | rfl | rfl | rfl <;> omega

theorem percentByte_ne_lbrace {b : Nat} (h : b < 256) : ∀ c ∈ percentByte b, c ≠ '{' := by
  intro c hc
  simp [percentByte] at hc
  rcases hc with rfl | rfl | rfl
  · decide
  · exact hexDigitUpper_ne_lbrace (by omega)
  · exact hexDigitUpper_ne_lbrace (by omega)

/-- Percent-encoding escapes `\x7b` itself (it is not unreserved), so an
encoded file path can never create a new placeholder occurrence. -/
theorem encodeURIComponent_ne_lbrace (s : String) :
    ∀ c ∈ (encodeURIComponent s).data, c ≠ '{' := by
  intro c hc
  simp only [encodeURIComponent, List.mem_flatMap] at hc
  obtain ⟨x, _, hc⟩ := hc
  by_cases hu : uriUnreserved x = true
  · rw [if_pos hu] at hc
    simp at hc
    subst hc
    intro he
    rw [he] at hu
    exact absurd hu (by decide)
  · rw [if_neg hu] at hc
    simp only [List.mem_flatMap] at hc
    obtain ⟨b, hb, hcb⟩ := hc
    exact percentByte_ne_lbrace (utf8Bytes_lt x b hb) c hcb

theorem isPrefixOf_cons_of_ne {a c : Char} (p rest : List Char) (h : c ≠ a) :
    (a :: p).isPrefixOf (c :: rest) = false := by
  have hbeq : (a == c) = false := by
    simp only [beq_eq_false_iff_ne, ne_eq]
    intro he
    exact h he.symm
  simp [List.isPrefixOf, hbeq]

theorem isPrefixOf_self_append (p t : List Char) : p.isPrefixOf (p ++ t) = true := by
  induction p with
  | nil => simp [List.isPrefixOf]
  | cons a p ih => simp [List.isPrefixOf, ih]

/-- Scanning for a pattern that starts with `p0` skips any prefix free of
`p0` (first-occurrence replacement). -/
theorem replaceFirstAux_skip (pat : List Char) (p0 : Char) (ptail repl : List Char)
    (hpat : pat = p0 :: ptail) :
    ∀ u w : List Char, (∀ c ∈ u, c ≠ p0) →
      replaceFirstAux pat repl (u ++ w) = u ++ replaceFirstAux pat repl w := by
  intro u
  induction u with
  | nil => intro w _; simp
  | cons c u ih =>
    intro w hu
    rw [List.cons_append, replaceFirstAux]
    have hpre : pat.isPrefixOf (c :: (u ++ w)) = false := by
      rw [hpat]
      exact isPrefixOf_cons_of_ne _ _ (hu c (by simp))
    rw [if_neg (by simp [hpre])]
    simp only [ih w (fun x hx => hu x (by simp [hx])), List.cons_append]

theorem replaceFirstAux_at_match (p0 : Char) (ptail repl t : List Char) :
    replaceFirstAux (p0 :: ptail) repl ((p0 :: ptail) ++ t) = repl ++ t := by
  rw [List.cons_append, replaceFirstAux]
  rw [if_pos ⟨by rw [← List.cons_append]; exact isPrefixOf_self_append _ _, by simp⟩]
  congr 1
  rw [List.length_cons, List.drop_succ_cons, List.drop_left]

/-- Counting occurrences of a pattern that starts with `p0` ignores any
prefix free of `p0` (fuel decreases by exactly one per skipped character). -/
theorem countOccF_skip (pat : List Char) (p0 : Char) (ptail : List Char)
    (hpat : pat = p0 :: ptail) :
    ∀ (u w : List Char) (fuel : Nat), (∀ c ∈ u, c ≠ p0) →
      countOccF pat (u.length + fuel) (u ++ w) = countOccF pat fuel w := by
  intro u
  induction u with
  | nil => intro w fuel _; simp
  | cons c u ih =>
    intro w fuel hu
    have hlen : (c :: u).length + fuel = u.length + fuel + 1 := by
      simp [List.length_cons]
      omega
    rw [hlen, List.cons_append, countOccF]
    have hpre : pat.isPrefixOf (c :: (u ++ w)) = false := by
      rw [hpat]
      exact isPrefixOf_cons_of_ne _ _ (hu c (by simp))
    rw [if_neg (by simp [hpre])]
    exact ih w fuel (fun x hx => hu x (by simp [hx]))

theorem countOcc_skip (pat : List Char) (p0 : Char) (ptail : List Char)
    (hpat : pat = p0 :: ptail) (u w : List Char) (hu : ∀ c ∈ u, c ≠ p0) :
    countOcc pat (u ++ w) = countOcc pat w := by
  unfold countOcc
  rw [List.length_append]
  exact countOccF_skip pat p0 ptail hpat u w w.length hu

/-- The result of one `jsReplace` step when the subject decomposes as a
pattern-free prefix, the pattern, and a tail. -/
theorem jsReplace_decomp (H pat repl : String) (p0 : Char) (ptail : List Char)
    (hpat : pat.data = p0 :: ptail) (u R : List Char)
    (hdec : H.data = u ++ (pat.data ++ R)) (hu : ∀ c ∈ u, c ≠ p0) :
    (jsReplace H pat repl).data = u ++ (repl.data ++ R) := by
  show replaceFirstAux pat.data repl.data H.data = _
  rw [hdec]
  rw [replaceFirstAux_skip pat.data p0 ptail repl.data hpat u (pat.data ++ R) hu]
  congr 1
  rw [hpat]
  exact replaceFirstAux_at_match p0 ptail repl.data R

/-- As `jsReplace_decomp`, with three pattern-free segments before the
pattern (prefix, encoded file, literal middle). -/
theorem jsReplace_decomp3 (H2 pat repl : String) (p0 : Char) (ptail : List Char)
    (hpat : pat.data = p0 :: ptail) (u v m R : List Char)
    (hdec : H2.data = u ++ (v ++ (m ++ (pat.data ++ R))))
    (hu : ∀ c ∈ u, c ≠ p0) (hv : ∀ c ∈ v, c ≠ p0) (hm : ∀ c ∈ m, c ≠ p0) :
    (jsReplace H2 pat repl).data = u ++ (v ++ (m ++ (repl.data ++ R))) := by
  show replaceFirstAux pat.data repl.data H2.data = _
  rw [hdec]
  rw [replaceFirstAux_skip pat.data p0 ptail repl.data hpat u _ hu]
  congr 1
  rw [replaceFirstAux_skip pat.data p0 ptail repl.data hpat v _ hv]
  congr 1
  rw [replaceFirstAux_skip pat.data p0 ptail repl.data hpat m _ hm]
  congr 1
  rw [hpat]
  exact replaceFirstAux_at_match p0 ptail repl.data R

/-- C4 counterexample: JS `String.prototype.replace` with a string pattern
replaces only the first occurrence.  For the custom template
`e://open/{line}/{line}` the dispatched URI keeps a literal `{line}`, so the
claim "all occurrences are replaced" is false, and the built URI differs from
the spec's substitute-every-occurrence model. -/
theorem buildURI_misses_second_occurrence :
    buildURI ⟨"e://open/{line}/{line}", some true⟩ "a" 3 4 = "e://open/3/{line}" ∧
      buildURI ⟨"e://open/{line}/{line}", some true⟩ "a" 3 4 ≠
        buildURISpec ⟨"e://open/{line}/{line}", some true⟩ "a" 3 4 := by
  decide

/-- When each of the three substitution steps finds at most one occurrence of
its placeholder, the dispatched URI equals the substitute-every-occurrence
URI of the spec. -/
theorem buildURI_eq_spec_of_counts (config : EditorConfig) (file : String)
    (line column : Nat)
    (h1 : countOcc ("{file}").data config.handler.data ≤ 1)
    (h2 : countOcc ("{line}").data
      (jsReplace config.handler "{file}" (encodeURIComponent file)).data ≤ 1)
    (h3 : countOcc ("{column}").data
      (jsReplace (jsReplace config.handler "{file}" (encodeURIComponent file))
        "{line}" (natToString line)).data ≤ 1) :
    buildURI config file line column = buildURISpec config file line column := by
  have step : ∀ s pat r : String, countOcc pat.data s.data ≤ 1 →
      jsReplace s pat r = jsReplaceAll s pat r := by
    intro s pat r h
    exact congrArg String.mk (replaceFirst_eq_replaceAll pat.data r.data s.data h)
  have e1 := step _ _ (encodeURIComponent file) h1
  have e2 : jsReplace (jsReplace config.handler "{file}" (encodeURIComponent file))
      "{line}" (natToString line) =
      jsReplaceAll (jsReplaceAll config.handler "{file}" (encodeURIComponent file))
        "{line}" (natToString line) := by
    rw [step _ _ _ h2, e1]
  simp only [buildURI, buildURISpec, ite_self]
  rw [step _ _ _ h3, e2]

/-- Discharges the occurrence bounds of `buildURI_eq_spec_of_counts` for a
template of shape `u ++ "\x7bfile\x7d" ++ m1 ++ "\x7bline\x7d" ++ Q` whose
literal segments `u`, `m1` contain no `\x7b` (every built-in preset has this
shape): neither the percent-encoded file nor the decimal line digits can
introduce a `\x7b`, so the counts reduce to counts over the literal tail. -/
theorem buildURI_preset_case (H : String) (b : Option Bool) (u m1 Q : List Char)
    (hdec : H.data = u ++ (("{file}").data ++ (m1 ++ (("{line}").data ++ Q))))
    (hu : ∀ c ∈ u, c ≠ '{') (hm1 : ∀ c ∈ m1, c ≠ '{')
    (hH : countOcc ("{file}").data H.data ≤ 1)
    (hR : countOcc ("{line}").data (m1 ++ (("{line}").data ++ Q)) ≤ 1)
    (hQ : countOcc ("{column}").data Q ≤ 1)
    (file : String) (line column : Nat) :
    buildURI ⟨H, b⟩ file line column = buildURISpec ⟨H, b⟩ file line column := by
  have hdig : ∀ c ∈ (natToString line).data, c ≠ '{' :=
    fun c hc => digit_ne_lbrace (natToChars_all_digit line c hc)
  have hd1 : (jsReplace H "{file}" (encodeURIComponent file)).data =
      u ++ ((encodeURIComponent file).data ++ (m1 ++ (("{line}").data ++ Q))) :=
    jsReplace_decomp H "{file}" (encodeURIComponent file) '{' ("file\x7d").data rfl
      u (m1 ++ (("{line}").data ++ Q)) hdec hu
  have hd2 : (jsReplace (jsReplace H "{file}" (encodeURIComponent file)) "{line}"
      (natToString line)).data =
      u ++ ((encodeURIComponent file).data ++ (m1 ++ ((natToString line).data ++ Q))) :=
    jsReplace_decomp3 _ "{line}" (natToString line) '{' ("line\x7d").data rfl
      u (encodeURIComponent file).data m1 Q hd1 hu
      (encodeURIComponent_ne_lbrace file) hm1
  apply buildURI_eq_spec_of_counts
  · exact hH
  · rw [hd1]
    rw [countOcc_skip ("{line}").data '{' ("line\x7d").data rfl u _ hu]
    rw [countOcc_skip ("{line}").data '{' ("line\x7d").data rfl
      (encodeURIComponent file).data _ (encodeURIComponent_ne_lbrace file)]
    exact hR
  · rw [hd2]
    rw [countOcc_skip ("{column}").data '{' ("column\x7d").data rfl u _ hu]
    rw [countOcc_skip ("{column}").data '{' ("column\x7d").data rfl
      (encodeURIComponent file).data _ (encodeURIComponent_ne_lbrace file)]
    rw [countOcc_skip ("{column}").data '{' ("column\x7d").data rfl m1 _ hm1]
    rw [countOcc_skip ("{column}").data '{' ("column\x7d").data rfl
      (natToString line).data _ hdig]
    exact hQ

/-- Every built-in preset template satisfies the at-most-one-occurrence
condition, so for every preset the built URI equals the spec's
substitute-every-occurrence URI, for all locations. -/
theorem buildURI_presets_eq_spec (key : String) (cfg : EditorConfig)
    (hk : EDITOR_HANDLERS key = some cfg) (file : String) (line column : Nat) :
    buildURI cfg file line column = buildURISpec cfg file line column := by
  unfold EDITOR_HANDLERS at hk
  split_ifs at hk
  · obtain rfl := Option.some.inj hk
    exact buildURI_preset_case _ _ ("vscode://file/".data) (":".data) (":{column}".data)
      (by decide) (by decide) (by decide) (by decide) (by decide) (by decide)
      file line column
  · obtain rfl := Option.some.inj hk
    exact buildURI_preset_case _ _ ("cursor://file/".data) (":".data) (":{column}".data)
      (by decide) (by decide) (by decide) (by decide) (by decide) (by decide)
      file line column
  · obtain rfl := Option.some.inj hk
    exact buildURI_preset_case _ _ ("webstorm://open?file=".data) ("&line=".data)
      ("&column={column}".data)
      (by decide) (by decide) (by decide) (by decide) (by decide) (by decide)
      file line column
  · obtain rfl := Option.some.inj hk
    exact buildURI_preset_case _ _ ("idea://open?file=".data) ("&line=".data) []
      (by decide) (by decide) (by decide) (by decide) (by decide) (by decide)
      file line column
  · obtain rfl := Option.some.inj hk
    exact buildURI_preset_case _ _ ("subl://".data) (":".data) (":{column}".data)
      (by decide) (by decide) (by decide) (by decide) (by decide) (by decide)
      file line column
  · obtain rfl := Option.some.inj hk
    exact buildURI_preset_case _ _ ("atom://open?url=file://".data) ("&line=".data)
      ("&column={column}".data)
      (by decide) (by decide) (by decide) (by decide) (by decide) (by decide)
      file line column
  · obtain rfl := Option.some.inj hk
    exact buildURI_preset_case _ _ ("phpstorm://open?file=".data) ("&line=".data) []
      (by decide) (by decide) (by decide) (by decide) (by decide) (by decide)
      file line column

/-- C4 amended: `buildURI` substitutes the percent-encoded file, the line and
the column only into the FIRST occurrence of each of `\x7bfile\x7d`,
`\x7bline\x7d`, `\x7bcolumn\x7d`; when each of the three substitution steps
finds at most one occurrence of its placeholder, the dispatched URI equals
the substitute-every-occurrence URI of the spec — and every built-in preset
template satisfies this, so for every preset the two URIs agree for all
locations. -/
theorem buildURI_first_occurrence_only (config : EditorConfig) (file : String)
    (line column : Nat)
    (h1 : countOcc ("{file}").data config.handler.data ≤ 1)
    (h2 : countOcc ("{line}").data
      (jsReplace config.handler "{file}" (encodeURIComponent file)).data ≤ 1)
    (h3 : countOcc ("{column}").data
      (jsReplace (jsReplace config.handler "{file}" (encodeURIComponent file))
        "{line}" (natToString line)).data ≤ 1) :
    buildURI config file line column = buildURISpec config file line column ∧
      ∀ key cfg2, EDITOR_HANDLERS key = some cfg2 → ∀ (f2 : String) (l2 c2 : Nat),
        buildURI cfg2 f2 l2 c2 = buildURISpec cfg2 f2 l2 c2 :=
  ⟨buildURI_eq_spec_of_counts config file line column h1 h2 h3,
   fun key cfg2 hk f2 l2 c2 => buildURI_presets_eq_spec key cfg2 hk f2 l2 c2⟩

theorem buildURI_first_occurrence_only_witness :
    (buildURI vscodeEntry "/a/b.tsx" 3 5 = buildURISpec vscodeEntry "/a/b.tsx" 3 5) ∧
      buildURI ⟨"cursor://file/{file}:{line}:{column}", some true⟩ "/x y.tsx" 7 0 =
        buildURISpec ⟨"cursor://file/{file}:{line}:{column}", some true⟩ "/x y.tsx" 7 0 :=
  ⟨(buildURI_first_occurrence_only vscodeEntry "/a/b.tsx" 3 5
      (by decide) (by decide) (by decide)).1,
   (buildURI_first_occurrence_only vscodeEntry "/a/b.tsx" 3 5
      (by decide) (by decide) (by decide)).2 "cursor"
      ⟨"cursor://file/{file}:{line}:{column}", some true⟩ (by decide) "/x y.tsx" 7 0⟩

/-- C5 counterexample: the empty file path contains no control characters and
`line = 1 ≥ 1`, `column = 0 ≥ 0`, yet the encoded token `:1:0` does not decode
back to the triple: the regex `^(.+):(\d+):(\d+)$` needs a non-empty file
group, so `parseSourceLocation` returns `none`. -/
theorem codec_roundtrip_fails_empty_file :
    parseSourceLocation (encodeLocation "" 1 0) = none := by
  decide

/-- C5 amended: for all `(file, line, column)` with `line ≥ 1`, `column ≥ 0`,
and `file` NON-EMPTY and containing no line-terminator character (U+000A,
U+000D — control characters — and also U+2028/U+2029, which JS regex `.` does
not match), decoding the encoded token yields exactly the original triple. -/
theorem codec_roundtrip (file : String) (line column : Nat)
    (hne : file.data ≠ []) (hdot : ∀ c ∈ file.data, dotChar c) (_hline : 1 ≤ line) :
    parseSourceLocation (encodeLocation file line column) =
      some ⟨file, line, column, encodeLocation file line column⟩ := by
  have hs : (encodeLocation file line column).data
      = file.data ++ ':' :: (natToChars line ++ ':' :: natToChars column) := rfl
  have hsne : encodeLocation file line column ≠ "" := by
    intro h
    have h2 := congrArg String.data h
    rw [hs] at h2
    cases hF : file.data with
    | nil => exact hne hF
    | cons a t =>
      rw [hF] at h2
      simp at h2
  have halldot : ∀ c ∈ file.data ++ ':' :: (natToChars line ++ ':' :: natToChars column),
      dotChar c := by
    intro c hc
    rcases List.mem_append.mp hc with hc | hc
    · exact hdot c hc
    · rcases List.mem_cons.mp hc with rfl | hc
      · exact colon_dotChar
      · rcases List.mem_append.mp hc with hc | hc
        · exact natToChars_all_dotChar line c hc
        · rcases List.mem_cons.mp hc with rfl | hc
          · exact colon_dotChar
          · exact natToChars_all_dotChar column c hc
  have hk1 : 1 ≤ file.data.length := List.length_pos.mpr hne
  have hmatch : tailMatch ((file.data ++
      ':' :: (natToChars line ++ ':' :: natToChars column)).drop file.data.length) =
      some (line, column) := by
    rw [List.drop_left]
    rw [tailMatch_correct (natToChars_all_digit line) (natToChars_ne_nil line)
      (natToChars_all_digit column) (natToChars_ne_nil column)]
    rw [charsToNat_natToChars, charsToNat_natToChars]
  have hnone : ∀ j, file.data.length < j →
      tailMatch ((file.data ++
        ':' :: (natToChars line ++ ':' :: natToChars column)).drop j) = none := by
    intro j hj
    obtain ⟨i, rfl⟩ : ∃ i, j = file.data.length + i := ⟨j - file.data.length, by omega⟩
    rw [List.drop_append]
    exact tailMatch_inside_none (natToChars_all_digit line)
      (natToChars_all_digit column) i (by omega)
  unfold parseSourceLocation
  rw [if_neg hsne, hs]
  unfold patMatch
  rw [takeWhile_all halldot]
  rw [greedyGo_eq _ file.data.length line column hk1 hmatch hnone _
    (by simp [List.length_append])]
  simp only [List.take_left]

theorem codec_roundtrip_witness :
    parseSourceLocation (encodeLocation "a.tsx" 3 5) =
      some ⟨"a.tsx", 3, 5, encodeLocation "a.tsx" 3 5⟩ :=
  codec_roundtrip "a.tsx" 3 5 (by decide) (by decide) (by decide)

theorem encodeLocation_ne_empty (f : String) (l c : Nat) : encodeLocation f l c ≠ "" := by
  intro h
  have h2 := congrArg String.data h
  simp [encodeLocation] at h2

theorem hasAttrNamed_append_attr (n m : String) (v : AttrVal) (l : List JSXAttr) :
    hasAttrNamed n (l ++ [.attr m v]) = (hasAttrNamed n l || decide (m = n)) := by
  simp [hasAttrNamed, List.any_append, isAttrNamed]

theorem hasAttrNamed_append (n : String) (l1 l2 : List JSXAttr) :
    hasAttrNamed n (l1 ++ l2) = (hasAttrNamed n l1 || hasAttrNamed n l2) := by
  simp [hasAttrNamed, List.any_append]

theorem hasAttrNamed_cons (n : String) (x : JSXAttr) (l : List JSXAttr) :
    hasAttrNamed n (x :: l) = (isAttrNamed n x || hasAttrNamed n l) := by
  simp [hasAttrNamed]

theorem hasAttrNamed_nil (n : String) : hasAttrNamed n [] = false := rfl

/-- Re-running the visitor body on an already-visited element changes nothing:
the location attribute (and the optional `__source` attribute) are only added
when absent. -/
theorem annotateElement_idem (a f : String) (inj : Bool) (el : JSXElement) :
    annotateElement a f inj (annotateElement a f inj el) = annotateElement a f inj el := by
  rcases el with ⟨loc, attrs⟩
  cases loc with
  | none => rfl
  | some lc =>
    obtain ⟨line, column⟩ := lc
    have hloc := encodeLocation_ne_empty f line column
    by_cases hA : hasAttrNamed a attrs
    · cases inj with
      | false => simp [annotateElement, hA]
      | true =>
        by_cases hS : hasAttrNamed "__source" attrs
        · simp [annotateElement, hA, hS]
        · simp [annotateElement, hA, hS, hasAttrNamed_append_attr]
    · cases inj with
      | false => simp [annotateElement, hA, hloc, hasAttrNamed_append_attr]
      | true =>
        by_cases haS : a = "__source"
        · subst haS
          simp [annotateElement, hA, hloc, hasAttrNamed_append_attr]
        · by_cases hS : hasAttrNamed "__source" attrs
          · simp [annotateElement, hA, hS, hloc, hasAttrNamed_append_attr, haS]
          · simp [annotateElement, hA, hS, hloc, haS, List.append_assoc,
              hasAttrNamed_append, hasAttrNamed_cons, hasAttrNamed_nil, isAttrNamed]

/-- An element that already carries an attribute of the configured name keeps
exactly its occurrences of that attribute (same values, no duplicates). -/
theorem annotateElement_preserves_named (a f : String) (inj : Bool) (el : JSXElement)
    (h : hasAttrNamed a el.attributes = true) :
    (annotateElement a f inj el).attributes.filter (isAttrNamed a) =
      el.attributes.filter (isAttrNamed a) := by
  rcases el with ⟨loc, attrs⟩
  simp only at h
  cases loc with
  | none => rfl
  | some lc =>
    obtain ⟨line, column⟩ := lc
    cases inj with
    | false => simp [annotateElement, h]
    | true =>
      by_cases hS : hasAttrNamed "__source" attrs
      · simp [annotateElement, h, hS]
      · by_cases haS : a = "__source"
        · subst haS
          rw [h] at hS
          simp at hS
        · have h2 : ¬ (("__source" : String) = a) := fun he => haS he.symm
          simp [annotateElement, h, hS, List.filter_append, isAttrNamed, h2]

/-- The elements of the loader output, in every branch. -/
theorem turbopackSourceLoader_elements (isProduction : Bool) (cwd : String)
    (pathRelative : String → String → String) (options : LoaderOptions)
    (resourcePath : String) (source : SourceFile) :
    (turbopackSourceLoader isProduction cwd pathRelative options resourcePath source).elements =
      if isProduction && !(options.production.getD false) then source.elements
      else
        source.elements.map
          (annotateElement (options.attributeName.getD "data-insp-path")
            (if options.useRelativePaths.getD false
             then pathRelative (options.rootDir.getD cwd) resourcePath
             else resourcePath)
            (options.injectReactSource.getD false)) := by
  unfold turbopackSourceLoader
  by_cases h : (isProduction && !(options.production.getD false)) = true
  · simp [h]
  · simp only [h, if_false, Bool.not_eq_true] at *
    simp only [h, Bool.false_eq_true, if_false]
    cases options.runtime with
    | none => rfl
    | some rt =>
      by_cases hp : isProduction <;> simp [hp]

theorem turbopackSourceLoader_directive (isProduction : Bool) (cwd : String)
    (pathRelative : String → String → String) (options : LoaderOptions)
    (resourcePath : String) (source : SourceFile) :
    (turbopackSourceLoader isProduction cwd pathRelative options resourcePath
        source).useClientDirective = source.useClientDirective := by
  unfold turbopackSourceLoader
  by_cases h : (isProduction && !(options.production.getD false)) = true
  · simp [h]
  · simp only [h, Bool.false_eq_true, if_false]
    cases options.runtime with
    | none => rfl
    | some rt =>
      by_cases hp : isProduction <;> simp [hp]

/-- In a non-production build with a runtime config, one more bootstrap
snippet is prepended on every run — unconditionally. -/
theorem turbopackSourceLoader_dev_snippets (cwd : String)
    (pathRelative : String → String → String) (options : LoaderOptions)
    (resourcePath : String) (source : SourceFile) (rt : RuntimeOptions)
    (hrt : options.runtime = some rt) :
    (turbopackSourceLoader false cwd pathRelative options resourcePath source).snippets =
      configSnippet rt :: source.snippets := by
  unfold turbopackSourceLoader
  simp [hrt]

/-- C1 counterexample: with a non-production config carrying a runtime
section, running the loader on its own output is NOT the identity on the
output text: a second bootstrap snippet is prepended (the runtime flag guard
tolerates this at load time, but the emitted text differs). -/
theorem annotator_not_textually_idempotent :
    turbopackSourceLoader false "" (fun _ p => p) { runtime := some {} } "f.tsx"
        (turbopackSourceLoader false "" (fun _ p => p) { runtime := some {} } "f.tsx"
          ⟨false, [], []⟩) ≠
      turbopackSourceLoader false "" (fun _ p => p) { runtime := some {} } "f.tsx"
        ⟨false, [], []⟩ := by
  decide

/-- C1 amended: for every non-production config with a runtime section,
running the annotator a second time on the first run's output changes no
markup element (no element gains a second location attribute and no attribute
values change) and keeps the directive, but it DOES prepend the
configuration-bootstrap snippet a second time, so the output text differs by
exactly that one extra snippet. -/
theorem annotator_idempotent_modulo_snippet (cwd : String)
    (pathRelative : String → String → String) (options : LoaderOptions)
    (resourcePath : String) (source : SourceFile) (rt : RuntimeOptions)
    (hrt : options.runtime = some rt) :
    (turbopackSourceLoader false cwd pathRelative options resourcePath
        (turbopackSourceLoader false cwd pathRelative options resourcePath
          source)).elements =
        (turbopackSourceLoader false cwd pathRelative options resourcePath
          source).elements ∧
      (turbopackSourceLoader false cwd pathRelative options resourcePath
          (turbopackSourceLoader false cwd pathRelative options resourcePath
            source)).useClientDirective =
        (turbopackSourceLoader false cwd pathRelative options resourcePath
          source).useClientDirective ∧
      (turbopackSourceLoader false cwd pathRelative options resourcePath
          (turbopackSourceLoader false cwd pathRelative options resourcePath
            source)).snippets =
        configSnippet rt ::
          (turbopackSourceLoader false cwd pathRelative options resourcePath
            source).snippets := by
  refine ⟨?_, ?_, ?_⟩
  · rw [turbopackSourceLoader_elements, turbopackSourceLoader_elements]
    simp only [Bool.false_and, Bool.false_eq_true, if_false]
    rw [List.map_map]
    apply List.map_congr_left
    intro x _
    exact annotateElement_idem _ _ _ x
  · rw [turbopackSourceLoader_directive]
  · rw [turbopackSourceLoader_dev_snippets _ _ _ _ _ _ hrt]

theorem annotator_idempotent_modulo_snippet_witness :
    (turbopackSourceLoader false "" (fun _ p => p) { runtime := some {} } "f.tsx"
        (turbopackSourceLoader false "" (fun _ p => p) { runtime := some {} } "f.tsx"
          ⟨false, [], [⟨some (1, 2), []⟩]⟩)).elements =
        (turbopackSourceLoader false "" (fun _ p => p) { runtime := some {} } "f.tsx"
          ⟨false, [], [⟨some (1, 2), []⟩]⟩).elements ∧
      (turbopackSourceLoader false "" (fun _ p => p) { runtime := some {} } "f.tsx"
          (turbopackSourceLoader false "" (fun _ p => p) { runtime := some {} } "f.tsx"
            ⟨false, [], [⟨some (1, 2), []⟩]⟩)).useClientDirective =
        (turbopackSourceLoader false "" (fun _ p => p) { runtime := some {} } "f.tsx"
          ⟨false, [], [⟨some (1, 2), []⟩]⟩).useClientDirective ∧
      (turbopackSourceLoader false "" (fun _ p => p) { runtime := some {} } "f.tsx"
          (turbopackSourceLoader false "" (fun _ p => p) { runtime := some {} } "f.tsx"
            ⟨false, [], [⟨some (1, 2), []⟩]⟩)).snippets =
        configSnippet {} ::
          (turbopackSourceLoader false "" (fun _ p => p) { runtime := some {} } "f.tsx"
            ⟨false, [], [⟨some (1, 2), []⟩]⟩).snippets :=
  annotator_idempotent_modulo_snippet "" (fun _ p => p) { runtime := some {} } "f.tsx"
    ⟨false, [], [⟨some (1, 2), []⟩]⟩ {} rfl

/-- C6: a markup element that already carries an attribute of the configured
name keeps that attribute with its original value, with no overwrite and no
duplicate: the filtered occurrences of the attribute name are unchanged by
the loader. -/
theorem annotator_non_clobber (isProduction : Bool) (cwd : String)
    (pathRelative : String → String → String) (options : LoaderOptions)
    (resourcePath : String) (source : SourceFile) (i : Nat) (el : JSXElement)
    (hel : source.elements[i]? = some el)
    (hattr : hasAttrNamed (options.attributeName.getD "data-insp-path") el.attributes = true) :
    ∃ el2,
      (turbopackSourceLoader isProduction cwd pathRelative options resourcePath
          source).elements[i]? = some el2 ∧
        el2.attributes.filter (isAttrNamed (options.attributeName.getD "data-insp-path")) =
          el.attributes.filter (isAttrNamed (options.attributeName.getD "data-insp-path")) := by
  rw [turbopackSourceLoader_elements]
  by_cases h : (isProduction && !(options.production.getD false)) = true
  · simp only [h, if_true]
    exact ⟨el, hel, rfl⟩
  · simp only [h, Bool.false_eq_true, if_false]
    rw [List.getElem?_map, hel]
    exact ⟨_, rfl, annotateElement_preserves_named _ _ _ _ hattr⟩

theorem annotator_non_clobber_witness :
    ∃ el2,
      (turbopackSourceLoader false "" (fun _ p => p) {} "f.tsx"
          ⟨false, [], [⟨some (1, 2), [.attr "data-insp-path" (.str "keep.tsx:9:9")]⟩]⟩).elements[0]? =
          some el2 ∧
        el2.attributes.filter (isAttrNamed (({} : LoaderOptions).attributeName.getD "data-insp-path")) =
          (JSXElement.mk (some (1, 2))
              [.attr "data-insp-path" (.str "keep.tsx:9:9")]).attributes.filter
            (isAttrNamed (({} : LoaderOptions).attributeName.getD "data-insp-path")) :=
  annotator_non_clobber false "" (fun _ p => p) {} "f.tsx"
    ⟨false, [], [⟨some (1, 2), [.attr "data-insp-path" (.str "keep.tsx:9:9")]⟩]⟩ 0
    ⟨some (1, 2), [.attr "data-insp-path" (.str "keep.tsx:9:9")]⟩ rfl (by decide)

theorem merge_shallow_override_wins_witness :
    (mergeConfig { attributeName := some "data-x", styles := some { tooltipColor := some "blue" } }
        { editor := some (.preset "cursor"), styles := some { outline := some "1px" } }).editor =
        some (.preset "cursor") ∧
      (mergeConfig { attributeName := some "data-x", styles := some { tooltipColor := some "blue" } }
        { editor := some (.preset "cursor"), styles := some { outline := some "1px" } }).attributeName =
        some "data-x" ∧
      (mergeConfig { attributeName := some "data-x", styles := some { tooltipColor := some "blue" } }
        { editor := some (.preset "cursor"), styles := some { outline := some "1px" } }).styles =
        some { outline := some "1px" } ∧
      effectiveStyles (mergeConfig
          { attributeName := some "data-x", styles := some { tooltipColor := some "blue" } }
          { editor := some (.preset "cursor"), styles := some { outline := some "1px" } }) =
        defaultStyles { outline := some "1px" } :=
  ⟨(merge_shallow_override_wins
      { attributeName := some "data-x", styles := some { tooltipColor := some "blue" } }
      { editor := some (.preset "cursor"), styles := some { outline := some "1px" } }).1.trans
      (by decide),
   (merge_shallow_override_wins
      { attributeName := some "data-x", styles := some { tooltipColor := some "blue" } }
      { editor := some (.preset "cursor"), styles := some { outline := some "1px" } }).2.1.trans
      (by decide),
   (merge_shallow_override_wins
      { attributeName := some "data-x", styles := some { tooltipColor := some "blue" } }
      { editor := some (.preset "cursor"), styles := some { outline := some "1px" } }).2.2.2.2.2.1.trans
      (by decide),
   (merge_shallow_override_wins
      { attributeName := some "data-x", styles := some { tooltipColor := some "blue" } }
      { editor := some (.preset "cursor"), styles := some { outline := some "1px" } }).2.2.2.2.2.2
      { outline := some "1px" } rfl⟩


/-! ### Runtime session lemmas (C3, C9) -/

theorem count_addListener (l : List Nat) (sid : Nat) (h : l.count sid = 0) :
    (addListener l sid).count sid = 1 := by
  have hmem : sid ∉ l := List.count_eq_zero.mp h
  simp [addListener, hmem, List.count_append, h]

/-- One toggle of a session preserves the session invariant: the session's
footprint in the document flips between zero and one handler/observer, never
reaching two. -/
theorem toggle_inv {sid : Nat} {s : Session} {d : Doc} (h : sessionInv sid s d) :
    sessionInv sid (toggleHighlighting sid (s, d)).1 (toggleHighlighting sid (s, d)).2 := by
  obtain ⟨hk, hc, ho, hob, hst⟩ := h
  by_cases he : s.isEnabled = true
  · have hov : s.observerVar = true := by rw [ho, he]
    refine ⟨?_, ?_, ?_, ?_, ?_⟩ <;>
      simp [toggleHighlighting, createStyles, he, hov, List.count_erase_self,
        hk, hc, hob, hst]
  · have hb : s.isEnabled = false := by
      revert he
      cases s.isEnabled <;> simp
    have hov : s.observerVar = false := by rw [ho, hb]
    have hc0 : d.click.count sid = 0 := by
      rw [hc, hb]
      rfl
    have hob0 : d.observers.count sid = 0 := by
      rw [hob, hb]
      rfl
    by_cases hsc : s.styleCreated = true
    · refine ⟨?_, ?_, ?_, ?_, ?_⟩ <;>
        simp [toggleHighlighting, createStyles, hb, hov, hsc, hk, hst,
          count_addListener _ _ hc0, List.count_append, hc0, hob0]
    · have hsc0 : s.styleCreated = false := by
        revert hsc
        cases s.styleCreated <;> simp
      have hst0 : d.styles.count sid = 0 := by
        rw [hst, hsc0]
        rfl
      refine ⟨?_, ?_, ?_, ?_, ?_⟩ <;>
        simp [toggleHighlighting, createStyles, hb, hov, hsc0, hk,
          count_addListener _ _ hc0, List.count_append, hc0, hob0, hst0]

theorem keyboard_inv {sid : Nat} {s : Session} {d : Doc} (shift : Bool) (key : String)
    (h : sessionInv sid s d) :
    sessionInv sid (keyboardHandler sid shift key (s, d)).1
      (keyboardHandler sid shift key (s, d)).2 := by
  unfold keyboardHandler
  by_cases hz : (shift && key == "Z") = true
  · simp only [hz, if_true]
    exact toggle_inv h
  · simp only [hz, Bool.false_eq_true, if_false]
    exact h

/-- The double toggle of the source, modelled faithfully: with
`enabledByDefault = true` the init-time `toggleHighlighting()` negates the
flag (already `true`) to `false` and runs the DISABLE branch, so the session
comes up inactive with only the keydown listener attached. -/
theorem enable_enabledByDefault_double_toggle :
    enableSourceHighlighting true {} { enabledByDefault := some true } 0 emptyDoc =
      (some ⟨false, false, false⟩, { emptyDoc with keydown := [0] }) := by
  decide

/-- Activation with a live document registers the keydown handler and (after
the optional init-time toggle, which on a fresh session always ends in the
disabled state because `isEnabled` starts at `enabledByDefault`) establishes
the session invariant. -/
theorem enable_inv (lc cc : HighlightConfig) (sid : Nat) (d0 : Doc)
    (h1 : sid ∉ d0.keydown) (h2 : sid ∉ d0.click) (h3 : sid ∉ d0.observers)
    (h4 : sid ∉ d0.styles) :
    ∃ s d, enableSourceHighlighting true lc cc sid d0 = (some s, d) ∧
      sessionInv sid s d := by
  have hbase : sessionInv sid ⟨false, false, false⟩
      { d0 with keydown := addListener d0.keydown sid } :=
    ⟨count_addListener _ _ (List.count_eq_zero.mpr h1),
      List.count_eq_zero.mpr h2, rfl,
      List.count_eq_zero.mpr h3, List.count_eq_zero.mpr h4⟩
  by_cases hE : (mergeConfig lc cc).enabledByDefault.getD false = true
  · refine ⟨(toggleHighlighting sid (⟨true, false, false⟩,
        { d0 with keydown := addListener d0.keydown sid })).1,
      (toggleHighlighting sid (⟨true, false, false⟩,
        { d0 with keydown := addListener d0.keydown sid })).2, ?_, ?_⟩
    · simp [enableSourceHighlighting, hE]
    · refine ⟨?_, ?_, ?_, ?_, ?_⟩ <;>
        simp [toggleHighlighting, count_addListener _ _ (List.count_eq_zero.mpr h1),
          List.count_erase_self, List.count_eq_zero.mpr h2,
          List.count_eq_zero.mpr h3, List.count_eq_zero.mpr h4]
  · have hEf : (mergeConfig lc cc).enabledByDefault.getD false = false := by
      revert hE
      cases (mergeConfig lc cc).enabledByDefault.getD false <;> simp
    refine ⟨_, _, ?_, hbase⟩
    simp [enableSourceHighlighting, hEf]

theorem runKeyEvents_inv (sid : Nat) (evs : List (Bool × String)) :
    ∀ s d, sessionInv sid s d →
      ∃ s2 d2, runKeyEvents sid evs (some s, d) = (some s2, d2) ∧
        sessionInv sid s2 d2 := by
  induction evs with
  | nil => exact fun s d h => ⟨s, d, rfl, h⟩
  | cons ev evs ih =>
    intro s d h
    have hstep : sessionInv sid (keyboardHandler sid ev.1 ev.2 (s, d)).1
        (keyboardHandler sid ev.1 ev.2 (s, d)).2 := keyboard_inv ev.1 ev.2 h
    obtain ⟨s2, d2, heq, hinv⟩ := ih _ _ hstep
    refine ⟨s2, d2, ?_, hinv⟩
    simp only [runKeyEvents, List.foldl_cons]
    simpa [runKeyEvents] using heq

/-- Cleanup on any invariant-satisfying state removes the whole session
footprint, and a second cleanup is a no-op. -/
theorem cleanup_of_inv {sid : Nat} {s : Session} {d : Doc} (h : sessionInv sid s d) :
    cleanup sid (cleanup sid (some s, d)) = cleanup sid (some s, d) ∧
      (cleanup sid (some s, d)).2.keydown.count sid = 0 ∧
      (cleanup sid (some s, d)).2.click.count sid = 0 ∧
      (cleanup sid (some s, d)).2.observers.count sid = 0 ∧
      (cleanup sid (some s, d)).2.styles.count sid = 0 ∧
      (cleanup sid (some s, d)).2.marker = false := by
  obtain ⟨hk, hc, ho, hob, hst⟩ := h
  have hkd : (d.keydown.erase sid).count sid = 0 := by
    rw [List.count_erase_self, hk]
  have hcl : (d.click.erase sid).count sid = 0 := by
    rw [List.count_erase_self, hc]
    split <;> rfl
  have hobs : (d.observers.erase sid).count sid = 0 := by
    rw [List.count_erase_self, hob]
    split <;> rfl
  have hsty : (d.styles.erase sid).count sid = 0 := by
    rw [List.count_erase_self, hst]
    split <;> rfl
  have hkd2 := List.erase_of_not_mem (List.count_eq_zero.mp hkd)
  have hcl2 := List.erase_of_not_mem (List.count_eq_zero.mp hcl)
  have hobs2 := List.erase_of_not_mem (List.count_eq_zero.mp hobs)
  have hsty2 := List.erase_of_not_mem (List.count_eq_zero.mp hsty)
  by_cases hsc : s.styleCreated = true
  · by_cases hovr : s.observerVar = true
    · refine ⟨?_, ?_, ?_, ?_, ?_, ?_⟩ <;>
        simp [cleanup, hsc, hovr, hkd, hcl, hobs, hsty, hkd2, hcl2, hobs2, hsty2]
    · have hen : s.isEnabled = false := by
        rw [← ho]
        revert hovr
        cases s.observerVar <;> simp
      have hst0 : d.observers.count sid = 0 := by
        simp [hob, hen]
      refine ⟨?_, ?_, ?_, ?_, ?_, ?_⟩ <;>
        simp [cleanup, hsc, hovr, hkd, hcl, hsty, hkd2, hcl2, hsty2, hst0,
          List.erase_of_not_mem (List.count_eq_zero.mp hst0)]
  · have hs0 : d.styles.count sid = 0 := by
      rw [hst]
      revert hsc
      cases s.styleCreated <;> simp
    by_cases hovr : s.observerVar = true
    · refine ⟨?_, ?_, ?_, ?_, ?_, ?_⟩ <;>
        simp [cleanup, hsc, hovr, hkd, hcl, hobs, hkd2, hcl2, hobs2, hs0,
          List.erase_of_not_mem (List.count_eq_zero.mp hs0)]
    · have hen : s.isEnabled = false := by
        rw [← ho]
        revert hovr
        cases s.observerVar <;> simp
      have hob0 : d.observers.count sid = 0 := by
        simp [hob, hen]
      refine ⟨?_, ?_, ?_, ?_, ?_, ?_⟩ <;>
        simp [cleanup, hsc, hovr, hkd, hcl, hkd2, hcl2, hs0, hob0,
          List.erase_of_not_mem (List.count_eq_zero.mp hs0),
          List.erase_of_not_mem (List.count_eq_zero.mp hob0)]

/-- C3 counterexample: each call to `enableSourceHighlighting` registers its
own fresh keydown closure (no guard), so a second activation call while a
session is live adds a SECOND page-wide keydown listener; and when the toggle
chord then fires, both handlers run and the document ends up with TWO
capturing click listeners. -/
theorem second_activation_adds_second_listener :
    ((enableSourceHighlighting true {} {} 1
        (enableSourceHighlighting true {} {} 0 emptyDoc).2).2.keydown = [0, 1]) ∧
      ((keyboardHandler 1 true "Z"
          ((enableSourceHighlighting true {} {} 1
              (enableSourceHighlighting true {} {} 0 emptyDoc).2).1.getD
            ⟨false, false, false⟩,
            (keyboardHandler 0 true "Z"
              ((enableSourceHighlighting true {} {} 0 emptyDoc).1.getD
                ⟨false, false, false⟩,
                (enableSourceHighlighting true {} {} 1
                  (enableSourceHighlighting true {} {} 0 emptyDoc).2).2)).2)).2.click =
        [0, 1]) := by
  decide

/-- C3 amended: a second activation call DOES create a second handler pair
(one keydown listener per call; after both sessions toggle active, two
capturing click listeners are attached).  What does hold is the per-session
bound: a single session, however its toggle chord is pressed, never has more
than one capturing click listener or mutation observer attached, and exactly
one keydown listener. -/
theorem single_session_one_handler_pair (lc cc : HighlightConfig) (sid : Nat)
    (d0 : Doc) (evs : List (Bool × String)) (h1 : sid ∉ d0.keydown)
    (h2 : sid ∉ d0.click) (h3 : sid ∉ d0.observers) (h4 : sid ∉ d0.styles) :
    (runKeyEvents sid evs
        (enableSourceHighlighting true lc cc sid d0)).2.click.count sid ≤ 1 ∧
      (runKeyEvents sid evs
        (enableSourceHighlighting true lc cc sid d0)).2.observers.count sid ≤ 1 ∧
      (runKeyEvents sid evs
        (enableSourceHighlighting true lc cc sid d0)).2.keydown.count sid = 1 := by
  obtain ⟨s1, d1, he, hinv1⟩ := enable_inv lc cc sid d0 h1 h2 h3 h4
  rw [he]
  obtain ⟨s2, d2, hr, hinv2⟩ := runKeyEvents_inv sid evs s1 d1 hinv1
  rw [hr]
  obtain ⟨hk, hc, ho, hob, hst⟩ := hinv2
  refine ⟨?_, ?_, hk⟩
  · rw [hc]
    split <;> omega
  · rw [hob]
    split <;> omega

theorem single_session_one_handler_pair_witness :
    (runKeyEvents 0 [(true, "Z")]
        (enableSourceHighlighting true {} {} 0 emptyDoc)).2.click.count 0 ≤ 1 ∧
      (runKeyEvents 0 [(true, "Z")]
        (enableSourceHighlighting true {} {} 0 emptyDoc)).2.observers.count 0 ≤ 1 ∧
      (runKeyEvents 0 [(true, "Z")]
        (enableSourceHighlighting true {} {} 0 emptyDoc)).2.keydown.count 0 = 1 :=
  single_session_one_handler_pair {} {} 0 emptyDoc [(true, "Z")]
    (by decide) (by decide) (by decide) (by decide)

/-- C9: for a session created by `enableSourceHighlighting` (fresh handler
identities, any sequence of toggle-chord keydowns afterwards), calling the
returned cleanup twice equals calling it once (each step is a specified no-op
the second time: `removeEventListener` on an absent handler, `remove()` on a
detached element, `disconnect()` on a disconnected observer), and after
cleanup the session has no keydown listener, no click listener, no mutation
observer, and no style element attached, and the page marker class is gone. -/
theorem cleanup_safety (lc cc : HighlightConfig) (sid : Nat) (d0 : Doc)
    (evs : List (Bool × String)) (h1 : sid ∉ d0.keydown) (h2 : sid ∉ d0.click)
    (h3 : sid ∉ d0.observers) (h4 : sid ∉ d0.styles) :
    cleanup sid (cleanup sid (runKeyEvents sid evs
          (enableSourceHighlighting true lc cc sid d0))) =
        cleanup sid (runKeyEvents sid evs
          (enableSourceHighlighting true lc cc sid d0)) ∧
      sid ∉ (cleanup sid (runKeyEvents sid evs
          (enableSourceHighlighting true lc cc sid d0))).2.keydown ∧
      sid ∉ (cleanup sid (runKeyEvents sid evs
          (enableSourceHighlighting true lc cc sid d0))).2.click ∧
      sid ∉ (cleanup sid (runKeyEvents sid evs
          (enableSourceHighlighting true lc cc sid d0))).2.observers ∧
      sid ∉ (cleanup sid (runKeyEvents sid evs
          (enableSourceHighlighting true lc cc sid d0))).2.styles ∧
      (cleanup sid (runKeyEvents sid evs
          (enableSourceHighlighting true lc cc sid d0))).2.marker = false := by
  obtain ⟨s1, d1, he, hinv1⟩ := enable_inv lc cc sid d0 h1 h2 h3 h4
  rw [he]
  obtain ⟨s2, d2, hr, hinv2⟩ := runKeyEvents_inv sid evs s1 d1 hinv1
  rw [hr]
  obtain ⟨hidem, hk0, hc0, hob0, hst0, hm⟩ := cleanup_of_inv hinv2
  exact ⟨hidem, List.count_eq_zero.mp hk0, List.count_eq_zero.mp hc0,
    List.count_eq_zero.mp hob0, List.count_eq_zero.mp hst0, hm⟩

theorem cleanup_safety_witness :
    cleanup 0 (cleanup 0 (runKeyEvents 0 [(true, "Z")]
          (enableSourceHighlighting true {} {} 0 emptyDoc))) =
        cleanup 0 (runKeyEvents 0 [(true, "Z")]
          (enableSourceHighlighting true {} {} 0 emptyDoc)) ∧
      0 ∉ (cleanup 0 (runKeyEvents 0 [(true, "Z")]
          (enableSourceHighlighting true {} {} 0 emptyDoc))).2.keydown ∧
      0 ∉ (cleanup 0 (runKeyEvents 0 [(true, "Z")]
          (enableSourceHighlighting true {} {} 0 emptyDoc))).2.click ∧
      0 ∉ (cleanup 0 (runKeyEvents 0 [(true, "Z")]
          (enableSourceHighlighting true {} {} 0 emptyDoc))).2.observers ∧
      0 ∉ (cleanup 0 (runKeyEvents 0 [(true, "Z")]
          (enableSourceHighlighting true {} {} 0 emptyDoc))).2.styles ∧
      (cleanup 0 (runKeyEvents 0 [(true, "Z")]
          (enableSourceHighlighting true {} {} 0 emptyDoc))).2.marker = false :=
  cleanup_safety {} {} 0 emptyDoc [(true, "Z")]
    (by decide) (by decide) (by decide) (by decide)

end Gaze
